import Mathlib

/-!
Shallow embedding of the credential/token lifecycle subsystem of the
Django auth-module example (apps/users): models.py, services.py, views.py.

Time is modelled as `Nat` (seconds); each operation receives the value of
`timezone.now()` as an explicit `now` argument.  Random secrets
(`AuthService.generate_token`) are modelled as explicit `secret` inputs to
the issuing operations.  The password hashing primitive
(`User.set_password`) is an external collaborator and is passed in as a
function parameter `hash`.
-/

namespace AuthModule

/-- `apps.users.models.User` — the fields the auth flows read or write. -/
structure UserRec where
  uid : Nat
  email : String
  passwordHash : String
  isActive : Bool
  emailVerified : Bool
  deriving Repr, DecidableEq

/-- `apps.users.models.PasswordResetToken` / `EmailVerificationToken`:
both tables have the same shape (user FK, unique token string,
created_at, expires_at, nullable used_at). -/
structure TokenRec where
  user : Nat
  token : String
  createdAt : Nat
  expiresAt : Nat
  usedAt : Option Nat
  deriving Repr, DecidableEq

/-- `PasswordResetToken.is_valid` / `EmailVerificationToken.is_valid`:
`used_at is None and expires_at > timezone.now()`. -/
def TokenRec.is_valid (t : TokenRec) (now : Nat) : Bool :=
  t.usedAt.isNone && decide (now < t.expiresAt)

/-- The database state the auth service operates on, plus the log of
notification-dispatcher (`send_mail`) calls as (templateKind, user id). -/
structure AuthState where
  users : List UserRec
  resetTokens : List TokenRec
  verifTokens : List TokenRec
  sentEmails : List (String × Nat)
  deriving Repr, DecidableEq

/-- `AuthService.TOKEN_LENGTH = 64`. -/
def TOKEN_LENGTH : Nat := 64

/-- `AuthService.PASSWORD_RESET_EXPIRY_HOURS = 24`. -/
def PASSWORD_RESET_EXPIRY_HOURS : Nat := 24

/-- `AuthService.EMAIL_VERIFICATION_EXPIRY_HOURS = 72`. -/
def EMAIL_VERIFICATION_EXPIRY_HOURS : Nat := 72

/-- Seconds per hour, to express `timedelta(hours=h)` over `Nat` seconds. -/
def secondsPerHour : Nat := 3600

/-- `Token.objects.filter(user=user, used_at__isnull=True).update(used_at=now)`:
the invalidate-previous-tokens step of both issuing operations. -/
def invalidateUnused (tokens : List TokenRec) (uid : Nat) (now : Nat) :
    List TokenRec :=
  tokens.map fun t =>
    if t.user = uid ∧ t.usedAt = none then { t with usedAt := some now } else t

/-- Whether a row with this token string exists (the `unique=True`
constraint on the `token` column). -/
def tokenExists (tokens : List TokenRec) (secret : String) : Bool :=
  tokens.any fun t => t.token = secret

/-- `Token.objects.create(user=user, token=secret, expires_at=exp)` with
`created_at = auto_now_add`.  The DB `unique=True` constraint on `token`
rejects a duplicate secret (IntegrityError), leaving the table unchanged. -/
def createToken (tokens : List TokenRec) (uid : Nat) (secret : String)
    (now exp : Nat) : List TokenRec :=
  if tokenExists tokens secret then tokens
  else tokens ++ [⟨uid, secret, now, exp, none⟩]

/-- `Token.objects.get(token=secret, used_at__isnull=True,
expires_at__gt=timezone.now())`, the lookup shared by
`AuthService.verify_email` and `AuthService.reset_password`.
At most one row can match because `token` is unique. -/
def findValidToken (tokens : List TokenRec) (secret : String) (now : Nat) :
    Option TokenRec :=
  tokens.find? fun t => t.token = secret && t.usedAt.isNone && decide (now < t.expiresAt)

/-- Setting `used_at = timezone.now()` on the row(s) matched by
`findValidToken` (exactly one under the unique-token constraint). -/
def markUsed (tokens : List TokenRec) (secret : String) (now : Nat) :
    List TokenRec :=
  tokens.map fun t =>
    if t.token = secret && t.usedAt.isNone && decide (now < t.expiresAt)
    then { t with usedAt := some now } else t

/-- `AuthService.send_verification_email(user)`: invalidate previous
unused email-verification tokens of the user, create a new one expiring
in `EMAIL_VERIFICATION_EXPIRY_HOURS`, and dispatch the mail. -/
def send_verification_email (s : AuthState) (uid : Nat) (secret : String)
    (now : Nat) : AuthState :=
  let vts := invalidateUnused s.verifTokens uid now
  let exp := now + EMAIL_VERIFICATION_EXPIRY_HOURS * secondsPerHour
  let vts := createToken vts uid secret now exp
  { s with verifTokens := vts,
           sentEmails := s.sentEmails ++ [("verify_email", uid)] }

/-- `AuthService.verify_email(token)`: consume a valid verification token,
mark the user's email verified; return whether it succeeded. -/
def verify_email (s : AuthState) (secret : String) (now : Nat) :
    Bool × AuthState :=
  match findValidToken s.verifTokens secret now with
  | none => (false, s)
  | some tk =>
    let vts := markUsed s.verifTokens secret now
    let users := s.users.map fun u =>
      if u.uid = tk.user then { u with emailVerified := true } else u
    (true, { s with verifTokens := vts, users := users })

/-- Python's `str.lower()`, character-wise over the string data. -/
def toLowerStr (s : String) : String := ⟨s.data.map Char.toLower⟩

/-- `User.objects.get(email=email.lower(), is_active=True)` (email is
unique, so at most one row matches). -/
def findActiveUser (users : List UserRec) (email : String) : Option UserRec :=
  users.find? fun u => u.email = toLowerStr email && u.isActive

/-- `AuthService.send_password_reset_email(email)`: silently return when
the email does not resolve to an active user; otherwise invalidate the
user's unused reset tokens, create a new one expiring in
`PASSWORD_RESET_EXPIRY_HOURS`, and dispatch the mail. -/
def send_password_reset_email (s : AuthState) (email : String)
    (secret : String) (now : Nat) : AuthState :=
  match findActiveUser s.users email with
  | none => s
  | some u =>
    let rts := invalidateUnused s.resetTokens u.uid now
    let exp := now + PASSWORD_RESET_EXPIRY_HOURS * secondsPerHour
    let rts := createToken rts u.uid secret now exp
    { s with resetTokens := rts,
             sentEmails := s.sentEmails ++ [("password_reset", u.uid)] }

/-- `AuthService.reset_password(token, new_password)`: consume a valid
reset token and set the owner's password to `hash new_password`
(`user.set_password`); return whether it succeeded. -/
def reset_password (hash : String → String) (s : AuthState)
    (secret newPassword : String) (now : Nat) : Bool × AuthState :=
  match findValidToken s.resetTokens secret now with
  | none => (false, s)
  | some tk =>
    let rts := markUsed s.resetTokens secret now
    let users := s.users.map fun u =>
      if u.uid = tk.user then { u with passwordHash := hash newPassword } else u
    (true, { s with resetTokens := rts, users := users })

/-- `AuthService.cleanup_expired_tokens()`: delete all rows of both token
tables with `expires_at < now`. -/
def cleanup_expired_tokens (s : AuthState) (now : Nat) : AuthState :=
  { s with
    resetTokens := s.resetTokens.filter fun t => ¬ t.expiresAt < now,
    verifTokens := s.verifTokens.filter fun t => ¬ t.expiresAt < now }

/-- A transport-level response: HTTP status code and body message. -/
structure HttpResponse where
  statusCode : Nat
  body : String
  deriving Repr, DecidableEq

/-- `PasswordResetRequestView.post`: run
`AuthService.send_password_reset_email` and always answer 200 with the
same message, to prevent email enumeration. -/
def passwordResetRequestPost (s : AuthState) (email secret : String)
    (now : Nat) : HttpResponse × AuthState :=
  let s' := send_password_reset_email s email secret now
  (⟨200, "If an account exists, a password reset email has been sent."⟩, s')

/-- `PasswordResetConfirmView.post`: run `AuthService.reset_password`;
200 on success, otherwise 400 with the uniform invalid-or-expired body. -/
def passwordResetConfirmPost (hash : String → String) (s : AuthState)
    (secret newPassword : String) (now : Nat) : HttpResponse × AuthState :=
  let r := reset_password hash s secret newPassword now
  if r.1 then (⟨200, "Password reset successfully."⟩, r.2)
  else (⟨400, "Invalid or expired token."⟩, r.2)

/-- `EmailVerificationView.post`: run `AuthService.verify_email`;
200 on success, otherwise 400 with the uniform invalid-or-expired body. -/
def emailVerificationPost (s : AuthState) (secret : String) (now : Nat) :
    HttpResponse × AuthState :=
  let r := verify_email s secret now
  if r.1 then (⟨200, "Email verified successfully."⟩, r.2)
  else (⟨400, "Invalid or expired token."⟩, r.2)

/-- One request against the auth service layer, with the clock value and
the freshly generated secret (where the operation draws one) made
explicit. -/
inductive AuthOp where
  | sendVerificationEmail (uid : Nat) (secret : String) (now : Nat)
  | verifyEmail (secret : String) (now : Nat)
  | sendPasswordResetEmail (email secret : String) (now : Nat)
  | resetPassword (secret newPassword : String) (now : Nat)
  | cleanupExpiredTokens (now : Nat)
  deriving Repr, DecidableEq

/-- State transition of a single `AuthOp`. -/
def applyOp (hash : String → String) (s : AuthState) : AuthOp → AuthState
  | .sendVerificationEmail uid secret now => send_verification_email s uid secret now
  | .verifyEmail secret now => (verify_email s secret now).2
  | .sendPasswordResetEmail email secret now => send_password_reset_email s email secret now
  | .resetPassword secret np now => (reset_password hash s secret np now).2
  | .cleanupExpiredTokens now => cleanup_expired_tokens s now

/-- State after a sequence of requests. -/
def applyOps (hash : String → String) (s : AuthState) (ops : List AuthOp) :
    AuthState :=
  ops.foldl (applyOp hash) s

/-- An `AuthOp` issues a password-reset token with secret `sec` iff it is
a `sendPasswordResetEmail` carrying that secret. -/
def issuesResetSecret (sec : String) : AuthOp → Prop
  | .sendPasswordResetEmail _ sc _ => sc = sec
  | _ => False

instance (sec : String) (op : AuthOp) : Decidable (issuesResetSecret sec op) := by
  cases op <;> simp [issuesResetSecret] <;> infer_instance

/-- No token row with secret `sec` is unused: the monotone "consumed"
property that makes a secret permanently unusable. -/
def noUnusedSecret (tokens : List TokenRec) (sec : String) : Prop :=
  ∀ t ∈ tokens, t.token = sec → t.usedAt ≠ none

/-- Result of a login attempt: a token pair with the authenticated user,
or the single generic authentication failure. -/
inductive LoginResult where
  | success (access refresh : String) (user : UserRec)
  | authenticationFailed
  deriving Repr, DecidableEq

/-- Modelled from the spec: the credential check behind `LoginView`
(performed by `TokenObtainPairSerializer` / Django's authentication
backend, which are not under src/ — `CustomTokenObtainPairSerializer`
only adds claims on top of it).  §4.3: look up user by normalized email;
if absent or `isActive = false`, fail with a single generic
`AuthenticationFailed`; otherwise verify the password against
`passwordHash` via the external hashing primitive; on mismatch, same
generic failure; on success return an access and refresh token pair.
`emailVerified` is never consulted.  `verify` is the external
password-verification primitive; `mintAccess`/`mintRefresh` mint the
stateless token strings for a user id. -/
def login (verify : String → String → Bool)
    (mintAccess mintRefresh : Nat → String)
    (users : List UserRec) (email password : String) : LoginResult :=
  match users.find? (fun u => u.email = toLowerStr email) with
  | none => .authenticationFailed
  | some u =>
    if u.isActive then
      if verify password u.passwordHash then
        .success (mintAccess u.uid) (mintRefresh u.uid) u
      else .authenticationFailed
    else .authenticationFailed

/-- Refresh-token session state seen by `LogoutView`: the set of refresh
token strings that verify (signature and expiry), and the blacklist. -/
structure SessionState where
  validRefresh : List String
  blacklisted : List String
  deriving Repr, DecidableEq

/-- `LogoutView.post`: read `request.data.get('refresh')`; when falsy
(absent or empty) skip blacklisting and answer 200; otherwise construct
`RefreshToken(refresh_token)` and blacklist it — any exception (token
invalid, expired, or already blacklisted) yields the 400 response.
The `RefreshToken` constructor and `blacklist()` come from
rest_framework_simplejwt (not under src/); modelled from the spec:
a refresh credential is valid iff tracked and not revoked. -/
def logoutPost (st : SessionState) (refresh : Option String) :
    HttpResponse × SessionState :=
  match refresh with
  | none => (⟨200, "Logged out successfully."⟩, st)
  | some rt =>
    if rt = "" then (⟨200, "Logged out successfully."⟩, st)
    else if rt ∈ st.validRefresh ∧ rt ∉ st.blacklisted then
      (⟨200, "Logged out successfully."⟩,
        { st with blacklisted := st.blacklisted ++ [rt] })
    else (⟨400, "Invalid token."⟩, st)

/-- `RegistrationThrottle.rate` (views.py). -/
def RegistrationThrottle_rate : String := "5/hour"

/-- `PasswordResetThrottle.rate` (views.py). -/
def PasswordResetThrottle_rate : String := "3/hour"

/-- Modelled from the spec: DRF's rate-string parsing ("N/period") used
by `AnonRateThrottle`, over the character data, restricted to the rates
occurring in views.py; yields (request limit, window in seconds). -/
def parseRateChars : List Char → Nat → Nat × Nat
  | [], n => (n, 1)
  | '/' :: rest, n => (n, if rest = "hour".data then secondsPerHour else 1)
  | c :: rest, n => parseRateChars rest (n * 10 + (c.toNat - 48))

/-- Modelled from the spec: limit and window of a DRF rate string. -/
def parseRate (r : String) : Nat × Nat := parseRateChars r.data 0

/-- Per-key throttle window state: time of the first observed request in
the current window, and the number of requests counted in it. -/
structure ThrottleState where
  windowStart : Nat
  count : Nat
  deriving Repr, DecidableEq

/-- Outcome of a rate-limiter check. -/
inductive ThrottleResult where
  | allowed
  | rejected
  deriving Repr, DecidableEq

/-- Modelled from the spec: §4.4 `tryAcquire(key, limit, window)` for one
key — the throttling algorithm lives in DRF's `AnonRateThrottle`, not
under src/.  Counters reset once the window elapses from the first
observed request in the window; within the window the request is allowed
while the count is below the limit and rejected otherwise. -/
def tryAcquire (limit window : Nat) (st : Option ThrottleState) (now : Nat) :
    ThrottleResult × ThrottleState :=
  match st with
  | none => (.allowed, ⟨now, 1⟩)
  | some w =>
    if w.windowStart + window ≤ now then (.allowed, ⟨now, 1⟩)
    else if w.count < limit then (.allowed, ⟨w.windowStart, w.count + 1⟩)
    else (.rejected, w)

/-- The rate limiter keeps one window per source key. -/
abbrev RateLimiter := List (String × ThrottleState)

/-- Current window of a key, if any. -/
def rlGet (rl : RateLimiter) (key : String) : Option ThrottleState :=
  (List.find? (fun e => e.1 = key) rl).map Prod.snd

/-- Store the window of a key, leaving other keys untouched. -/
def rlSet (rl : RateLimiter) (key : String) (st : ThrottleState) :
    RateLimiter :=
  (key, st) :: rl.filter fun e => ¬ e.1 = key

/-- Modelled from the spec: keyed `tryAcquire` — check and update the
window of `key` only. -/
def tryAcquireKey (limit window : Nat) (rl : RateLimiter) (key : String)
    (now : Nat) : ThrottleResult × RateLimiter :=
  let r := tryAcquire limit window (rlGet rl key) now
  (r.1, rlSet rl key r.2)

/-- Run a sequence of requests for one key through the limiter, and
collect the results. -/
def runThrottle (limit window : Nat) (rl : RateLimiter) (key : String) :
    List Nat → List ThrottleResult × RateLimiter
  | [] => ([], rl)
  | t :: ts =>
    let r := tryAcquireKey limit window rl key t
    let rest := runThrottle limit window r.2 key ts
    (r.1 :: rest.1, rest.2)

/-! ### Helper lemmas: once every row with a secret is used, it stays so -/

theorem noUnusedSecret_invalidateUnused {ts : List TokenRec} {sec : String}
    (h : noUnusedSecret ts sec) (uid now : Nat) :
    noUnusedSecret (invalidateUnused ts uid now) sec := by
  intro t ht htok
  simp only [invalidateUnused, List.mem_map] at ht
  obtain ⟨t0, ht0, heq⟩ := ht
  by_cases hc : t0.user = uid ∧ t0.usedAt = none
  · simp [hc] at heq
    subst heq
    simp
  · simp [hc] at heq
    subst heq
    exact h t0 ht0 htok

theorem noUnusedSecret_createToken {ts : List TokenRec} {sec : String}
    (h : noUnusedSecret ts sec) {sec' : String} (hne : sec' ≠ sec)
    (uid now exp : Nat) :
    noUnusedSecret (createToken ts uid sec' now exp) sec := by
  intro t ht htok
  unfold createToken at ht
  by_cases he : tokenExists ts sec'
  · simp [he] at ht
    exact h t ht htok
  · simp [he] at ht
    rcases ht with ht | ht
    · exact h t ht htok
    · subst ht
      simp at htok
      exact absurd htok hne

theorem noUnusedSecret_markUsed {ts : List TokenRec} {sec : String}
    (h : noUnusedSecret ts sec) (sec' : String) (now : Nat) :
    noUnusedSecret (markUsed ts sec' now) sec := by
  intro t ht htok
  simp only [markUsed, List.mem_map] at ht
  obtain ⟨t0, ht0, heq⟩ := ht
  by_cases hc : (t0.token = sec' && t0.usedAt.isNone && decide (now < t0.expiresAt)) = true
  · simp [hc] at heq
    subst heq
    simp
  · simp [hc] at heq
    subst heq
    exact h t0 ht0 htok

theorem noUnusedSecret_filter {ts : List TokenRec} {sec : String}
    (h : noUnusedSecret ts sec) (p : TokenRec → Bool) :
    noUnusedSecret (ts.filter p) sec := by
  intro t ht htok
  exact h t (List.mem_of_mem_filter ht) htok

/-- If no row with this secret is unused, the validator lookup misses. -/
theorem findValidToken_eq_none_of_noUnusedSecret {ts : List TokenRec}
    {sec : String} (h : noUnusedSecret ts sec) (now : Nat) :
    findValidToken ts sec now = none := by
  unfold findValidToken
  rw [List.find?_eq_none]
  intro t ht hp
  simp only [Bool.and_eq_true, decide_eq_true_eq, Option.isNone_iff_eq_none] at hp
  exact h t ht hp.1.1 hp.1.2

/-- `noUnusedSecret` for the reset-token table is preserved by every
operation that does not issue a new reset token with that secret. -/
theorem noUnusedSecret_applyOp (hash : String → String) {s : AuthState}
    {sec : String} (h : noUnusedSecret s.resetTokens sec) (op : AuthOp)
    (hop : ¬ issuesResetSecret sec op) :
    noUnusedSecret ((applyOp hash s op).resetTokens) sec := by
  cases op with
  | sendVerificationEmail uid secret now =>
    exact h
  | verifyEmail secret now =>
    show noUnusedSecret (verify_email s secret now).2.resetTokens sec
    unfold verify_email
    split
    · exact h
    · exact h
  | sendPasswordResetEmail email secret now =>
    simp only [issuesResetSecret] at hop
    show noUnusedSecret (send_password_reset_email s email secret now).resetTokens sec
    unfold send_password_reset_email
    split
    · exact h
    · rename_i u heq
      exact noUnusedSecret_createToken
        (noUnusedSecret_invalidateUnused h u.uid now) hop u.uid now _
  | resetPassword secret np now =>
    show noUnusedSecret (reset_password hash s secret np now).2.resetTokens sec
    unfold reset_password
    split
    · exact h
    · exact noUnusedSecret_markUsed h secret now
  | cleanupExpiredTokens now =>
    exact noUnusedSecret_filter h _

/-- `noUnusedSecret` is preserved by any request sequence that never
issues a reset token with that secret. -/
theorem noUnusedSecret_applyOps (hash : String → String) {s : AuthState}
    {sec : String} (h : noUnusedSecret s.resetTokens sec)
    (ops : List AuthOp) (hops : ∀ op ∈ ops, ¬ issuesResetSecret sec op) :
    noUnusedSecret ((applyOps hash s ops).resetTokens) sec := by
  induction ops generalizing s with
  | nil => simpa [applyOps] using h
  | cons op rest ih =>
    have h1 := noUnusedSecret_applyOp hash h op (hops op (by simp))
    have := ih h1 (fun o ho => hops o (by simp [ho]))
    simpa [applyOps] using this

/-! ### Characterization of the two consume operations -/

theorem reset_password_of_find_none (hash : String → String) (s : AuthState)
    {sec : String} {now : Nat}
    (hf : findValidToken s.resetTokens sec now = none) (np : String) :
    reset_password hash s sec np now = (false, s) := by
  unfold reset_password
  rw [hf]

theorem reset_password_of_find_some (hash : String → String) (s : AuthState)
    {sec : String} {now : Nat} {tk : TokenRec}
    (hf : findValidToken s.resetTokens sec now = some tk) (np : String) :
    reset_password hash s sec np now =
      (true,
        { s with
          resetTokens := markUsed s.resetTokens sec now,
          users := s.users.map fun u =>
            if u.uid = tk.user then { u with passwordHash := hash np } else u }) := by
  unfold reset_password
  rw [hf]

theorem verify_email_of_find_none (s : AuthState) {sec : String} {now : Nat}
    (hf : findValidToken s.verifTokens sec now = none) :
    verify_email s sec now = (false, s) := by
  unfold verify_email
  rw [hf]

theorem verify_email_of_find_some (s : AuthState) {sec : String} {now : Nat}
    {tk : TokenRec} (hf : findValidToken s.verifTokens sec now = some tk) :
    verify_email s sec now =
      (true,
        { s with
          verifTokens := markUsed s.verifTokens sec now,
          users := s.users.map fun u =>
            if u.uid = tk.user then { u with emailVerified := true } else u }) := by
  unfold verify_email
  rw [hf]

/-- When rows with equal secrets are equal (the DB unique constraint on
`token`), a successful lookup leaves no unused row with that secret after
`markUsed`. -/
theorem noUnusedSecret_markUsed_of_find_some {ts : List TokenRec}
    {sec : String} {now : Nat}
    (huniq : ∀ t ∈ ts, ∀ t' ∈ ts, t.token = t'.token → t = t')
    {tk : TokenRec} (hf : findValidToken ts sec now = some tk) :
    noUnusedSecret (markUsed ts sec now) sec := by
  have htk_mem : tk ∈ ts := List.mem_of_find?_eq_some hf
  have htk_p := List.find?_some hf
  simp only [Bool.and_eq_true, decide_eq_true_eq, Option.isNone_iff_eq_none] at htk_p
  intro t ht htok
  simp only [markUsed, List.mem_map] at ht
  obtain ⟨t0, ht0, heq⟩ := ht
  by_cases hc : (t0.token = sec && t0.usedAt.isNone && decide (now < t0.expiresAt)) = true
  · simp [hc] at heq
    subst heq
    simp
  · simp [hc] at heq
    subst heq
    have ht0tk : t0 = tk := huniq t0 ht0 tk htk_mem (htok.trans htk_p.1.1.symm)
    subst ht0tk
    simp only [Bool.and_eq_true, decide_eq_true_eq, Option.isNone_iff_eq_none,
      not_and] at hc
    exact absurd htk_p.2 (hc ⟨htk_p.1.1, htk_p.1.2⟩)

/-- An `AuthOp` issues an email-verification token with secret `sec` iff
it is a `sendVerificationEmail` carrying that secret. -/
def issuesVerifSecret (sec : String) : AuthOp → Prop
  | .sendVerificationEmail _ sc _ => sc = sec
  | _ => False

instance (sec : String) (op : AuthOp) : Decidable (issuesVerifSecret sec op) := by
  cases op <;> simp [issuesVerifSecret] <;> infer_instance

/-- `noUnusedSecret` for the verification-token table is preserved by
every operation that does not issue a verification token with that
secret. -/
theorem noUnusedSecret_applyOp_verif (hash : String → String) {s : AuthState}
    {sec : String} (h : noUnusedSecret s.verifTokens sec) (op : AuthOp)
    (hop : ¬ issuesVerifSecret sec op) :
    noUnusedSecret ((applyOp hash s op).verifTokens) sec := by
  cases op with
  | sendVerificationEmail uid secret now =>
    simp only [issuesVerifSecret] at hop
    show noUnusedSecret (send_verification_email s uid secret now).verifTokens sec
    exact noUnusedSecret_createToken
      (noUnusedSecret_invalidateUnused h uid now) hop uid now _
  | verifyEmail secret now =>
    show noUnusedSecret (verify_email s secret now).2.verifTokens sec
    unfold verify_email
    split
    · exact h
    · exact noUnusedSecret_markUsed h secret now
  | sendPasswordResetEmail email secret now =>
    show noUnusedSecret (send_password_reset_email s email secret now).verifTokens sec
    unfold send_password_reset_email
    split
    · exact h
    · exact h
  | resetPassword secret np now =>
    show noUnusedSecret (reset_password hash s secret np now).2.verifTokens sec
    unfold reset_password
    split
    · exact h
    · exact h
  | cleanupExpiredTokens now =>
    exact noUnusedSecret_filter h _

/-- Verification-table version of `noUnusedSecret_applyOps`. -/
theorem noUnusedSecret_applyOps_verif (hash : String → String) {s : AuthState}
    {sec : String} (h : noUnusedSecret s.verifTokens sec)
    (ops : List AuthOp) (hops : ∀ op ∈ ops, ¬ issuesVerifSecret sec op) :
    noUnusedSecret ((applyOps hash s ops).verifTokens) sec := by
  induction ops generalizing s with
  | nil => simpa [applyOps] using h
  | cons op rest ih =>
    have h1 := noUnusedSecret_applyOp_verif hash h op (hops op (by simp))
    have := ih h1 (fun o ho => hops o (by simp [ho]))
    simpa [applyOps] using this

/-- C1: for every token secret, consume (`reset_password` /
`verify_email`) succeeds at most once: if a call with that secret returns
success then — under the DB unique-token constraint and as long as no
later issuance draws the same random secret — every later call with the
same secret returns failure, across any interleaving of further
operations (a consumed or invalidated token never returns to a valid
state regardless of retries). -/
theorem consume_succeeds_at_most_once (hash : String → String)
    (s : AuthState) (sec np : String) (now : Nat) (ops : List AuthOp)
    (np' : String) (now' : Nat) :
    ((∀ t ∈ s.resetTokens, ∀ t' ∈ s.resetTokens, t.token = t'.token → t = t') →
      (reset_password hash s sec np now).1 = true →
      (∀ op ∈ ops, ¬ issuesResetSecret sec op) →
      (reset_password hash
        (applyOps hash (reset_password hash s sec np now).2 ops)
        sec np' now').1 = false) ∧
    ((∀ t ∈ s.verifTokens, ∀ t' ∈ s.verifTokens, t.token = t'.token → t = t') →
      (verify_email s sec now).1 = true →
      (∀ op ∈ ops, ¬ issuesVerifSecret sec op) →
      (verify_email
        (applyOps hash (verify_email s sec now).2 ops)
        sec now').1 = false) := by
  constructor
  · intro huniq hsucc hops
    cases hf : findValidToken s.resetTokens sec now with
    | none =>
      rw [reset_password_of_find_none hash s hf np] at hsucc
      simp at hsucc
    | some tk =>
      have h0 : noUnusedSecret ((reset_password hash s sec np now).2).resetTokens sec := by
        rw [reset_password_of_find_some hash s hf np]
        exact noUnusedSecret_markUsed_of_find_some huniq hf
      have h1 := noUnusedSecret_applyOps hash h0 ops hops
      rw [reset_password_of_find_none hash _
        (findValidToken_eq_none_of_noUnusedSecret h1 now') np']
  · intro huniq hsucc hops
    cases hf : findValidToken s.verifTokens sec now with
    | none =>
      rw [verify_email_of_find_none s hf] at hsucc
      simp at hsucc
    | some tk =>
      have h0 : noUnusedSecret ((verify_email s sec now).2).verifTokens sec := by
        rw [verify_email_of_find_some s hf]
        exact noUnusedSecret_markUsed_of_find_some huniq hf
      have h1 := noUnusedSecret_applyOps_verif hash h0 ops hops
      rw [verify_email_of_find_none _
        (findValidToken_eq_none_of_noUnusedSecret h1 now')]

/-- Witness for C1: a concrete state with one valid token of each kind;
after a successful consume, retries and later calls with the same secret
fail for both kinds. -/
theorem consume_succeeds_at_most_once_witness :
    (reset_password id
      (applyOps id
        (reset_password id
          ⟨[⟨1, "a@b.com", "h0", true, false⟩],
           [⟨1, "sec", 0, 100, none⟩], [⟨1, "sec", 0, 100, none⟩], []⟩
          "sec" "np" 0).2
        [AuthOp.resetPassword "sec" "x" 1, AuthOp.verifyEmail "sec" 1])
      "sec" "np2" 2).1 = false ∧
    (verify_email
      (applyOps id
        (verify_email
          ⟨[⟨1, "a@b.com", "h0", true, false⟩],
           [⟨1, "sec", 0, 100, none⟩], [⟨1, "sec", 0, 100, none⟩], []⟩
          "sec" 0).2
        [AuthOp.resetPassword "sec" "x" 1, AuthOp.verifyEmail "sec" 1])
      "sec" 2).1 = false :=
  ⟨(consume_succeeds_at_most_once id
      ⟨[⟨1, "a@b.com", "h0", true, false⟩],
       [⟨1, "sec", 0, 100, none⟩], [⟨1, "sec", 0, 100, none⟩], []⟩
      "sec" "np" 0
      [AuthOp.resetPassword "sec" "x" 1, AuthOp.verifyEmail "sec" 1]
      "np2" 2).1 (by decide) (by decide) (by decide),
   (consume_succeeds_at_most_once id
      ⟨[⟨1, "a@b.com", "h0", true, false⟩],
       [⟨1, "sec", 0, 100, none⟩], [⟨1, "sec", 0, 100, none⟩], []⟩
      "sec" "np" 0
      [AuthOp.resetPassword "sec" "x" 1, AuthOp.verifyEmail "sec" 1]
      "np2" 2).2 (by decide) (by decide) (by decide)⟩

/-! ### Counting lemmas for the at-most-one-live-token invariant -/

/-- Number of unused (`used_at IS NULL`) tokens of a user. -/
def unusedCount (tokens : List TokenRec) (uid : Nat) : Nat :=
  (tokens.filter fun t => t.user = uid && t.usedAt.isNone).length

/-- Number of live (unused and unexpired) tokens of a user: the quantity
bounded by the §3 invariant. -/
def liveCount (tokens : List TokenRec) (uid now : Nat) : Nat :=
  (tokens.filter fun t => t.user = uid && t.is_valid now).length

theorem length_filter_le_filter {α : Type} (l : List α) (p q : α → Bool)
    (h : ∀ a ∈ l, p a = true → q a = true) :
    (l.filter p).length ≤ (l.filter q).length := by
  induction l with
  | nil => simp
  | cons a rest ih =>
    have ih' := ih (fun x hx => h x (by simp [hx]))
    simp only [List.filter_cons]
    by_cases hp : p a = true
    · rw [if_pos hp, if_pos (h a (by simp) hp)]
      simpa using ih'
    · rw [if_neg hp]
      by_cases hq : q a = true
      · rw [if_pos hq]
        exact le_trans ih' (by simp)
      · rw [if_neg hq]
        exact ih'

theorem length_filter_map_le {α : Type} (l : List α) (f : α → α) (p : α → Bool)
    (h : ∀ a ∈ l, p (f a) = true → p a = true) :
    ((l.map f).filter p).length ≤ (l.filter p).length := by
  induction l with
  | nil => simp
  | cons a rest ih =>
    have ih' := ih (fun x hx => h x (by simp [hx]))
    simp only [List.map_cons, List.filter_cons]
    by_cases hfa : p (f a) = true
    · rw [if_pos hfa, if_pos (h a (by simp) hfa)]
      simpa using ih'
    · rw [if_neg hfa]
      by_cases hpa : p a = true
      · rw [if_pos hpa]
        exact le_trans ih' (by simp)
      · rw [if_neg hpa]
        exact ih'

theorem length_filter_map_eq {α : Type} (l : List α) (f : α → α) (p : α → Bool)
    (h : ∀ a ∈ l, p (f a) = p a) :
    ((l.map f).filter p).length = (l.filter p).length := by
  induction l with
  | nil => rfl
  | cons a rest ih =>
    have ih' := ih (fun x hx => h x (by simp [hx]))
    simp only [List.map_cons, List.filter_cons, h a (by simp)]
    by_cases hp : p a = true
    · rw [if_pos hp, if_pos hp]
      simpa using ih'
    · rw [if_neg hp, if_neg hp]
      exact ih'

theorem liveCount_le_unusedCount (ts : List TokenRec) (uid now : Nat) :
    liveCount ts uid now ≤ unusedCount ts uid := by
  unfold liveCount unusedCount
  apply length_filter_le_filter
  intro t _ hp
  simp only [TokenRec.is_valid, Bool.and_eq_true] at hp ⊢
  exact ⟨hp.1, hp.2.1⟩

theorem unusedCount_invalidate_self (ts : List TokenRec) (uid now : Nat) :
    unusedCount (invalidateUnused ts uid now) uid = 0 := by
  unfold unusedCount
  rw [List.length_eq_zero, List.filter_eq_nil_iff]
  intro t ht
  simp only [invalidateUnused, List.mem_map] at ht
  obtain ⟨t0, ht0, heq⟩ := ht
  by_cases hc : t0.user = uid ∧ t0.usedAt = none
  · rw [if_pos hc] at heq
    subst heq
    simp
  · rw [if_neg hc] at heq
    subst heq
    simp only [Bool.and_eq_true, decide_eq_true_eq,
      Option.isNone_iff_eq_none, not_and]
    intro h1 h2
    exact hc ⟨h1, h2⟩

theorem unusedCount_invalidate_other (ts : List TokenRec) {uid u' : Nat}
    (hne : u' ≠ uid) (now : Nat) :
    unusedCount (invalidateUnused ts uid now) u' = unusedCount ts u' := by
  unfold unusedCount invalidateUnused
  apply length_filter_map_eq
  intro t _
  by_cases hc : t.user = uid ∧ t.usedAt = none
  · rw [if_pos hc]
    simp [hc.1, hc.2, Ne.symm hne]
  · rw [if_neg hc]

theorem unusedCount_createToken_self (ts : List TokenRec) (uid : Nat)
    (sec : String) (now exp : Nat) :
    unusedCount (createToken ts uid sec now exp) uid ≤
      unusedCount ts uid + 1 := by
  unfold createToken
  by_cases he : tokenExists ts sec
  · simp only [he, if_pos]
    omega
  · simp only [he, Bool.false_eq_true, if_neg, unusedCount,
      List.filter_append, List.length_append]
    simp [List.filter_cons]

theorem unusedCount_createToken_other (ts : List TokenRec) {uid u' : Nat}
    (hne : u' ≠ uid) (sec : String) (now exp : Nat) :
    unusedCount (createToken ts uid sec now exp) u' = unusedCount ts u' := by
  unfold createToken
  by_cases he : tokenExists ts sec
  · simp [he]
  · simp only [he, Bool.false_eq_true, if_neg, unusedCount,
      List.filter_append, List.length_append]
    simp [List.filter_cons, Ne.symm hne]

theorem unusedCount_markUsed_le (ts : List TokenRec) (sec : String)
    (now uid : Nat) :
    unusedCount (markUsed ts sec now) uid ≤ unusedCount ts uid := by
  unfold unusedCount markUsed
  apply length_filter_map_le
  intro t _ hp
  by_cases hc : (t.token = sec && t.usedAt.isNone && decide (now < t.expiresAt)) = true
  · simp [hc] at hp
  · simpa [hc] using hp

theorem unusedCount_filter_le (ts : List TokenRec) (p : TokenRec → Bool)
    (uid : Nat) :
    unusedCount (ts.filter p) uid ≤ unusedCount ts uid := by
  unfold unusedCount
  exact List.Sublist.length_le
    (List.Sublist.filter _ (List.filter_sublist ts : (ts.filter p).Sublist ts))

/-- At most one unused token per user: the stronger invariant that the
invalidate-then-issue sequence maintains per token table. -/
def atMostOneUnused (tokens : List TokenRec) : Prop :=
  ∀ uid, unusedCount tokens uid ≤ 1

theorem atMostOneUnused_issue {ts : List TokenRec} (h : atMostOneUnused ts)
    (uid : Nat) (sec : String) (now exp : Nat) :
    atMostOneUnused (createToken (invalidateUnused ts uid now) uid sec now exp) := by
  intro u'
  by_cases hu : u' = uid
  · subst hu
    calc unusedCount (createToken (invalidateUnused ts u' now) u' sec now exp) u'
        ≤ unusedCount (invalidateUnused ts u' now) u' + 1 :=
          unusedCount_createToken_self _ _ _ _ _
      _ = 1 := by rw [unusedCount_invalidate_self]
  · rw [unusedCount_createToken_other _ hu,
      unusedCount_invalidate_other _ hu]
    exact h u'

theorem atMostOneUnused_applyOp (hash : String → String) {s : AuthState}
    (hr : atMostOneUnused s.resetTokens) (hv : atMostOneUnused s.verifTokens)
    (op : AuthOp) :
    atMostOneUnused ((applyOp hash s op).resetTokens) ∧
    atMostOneUnused ((applyOp hash s op).verifTokens) := by
  cases op with
  | sendVerificationEmail uid secret now =>
    exact ⟨hr, atMostOneUnused_issue hv uid secret now _⟩
  | verifyEmail secret now =>
    constructor
    · show atMostOneUnused (verify_email s secret now).2.resetTokens
      unfold verify_email
      split
      · exact hr
      · exact hr
    · show atMostOneUnused (verify_email s secret now).2.verifTokens
      unfold verify_email
      split
      · exact hv
      · intro uid
        exact le_trans (unusedCount_markUsed_le _ _ _ _) (hv uid)
  | sendPasswordResetEmail email secret now =>
    constructor
    · show atMostOneUnused (send_password_reset_email s email secret now).resetTokens
      unfold send_password_reset_email
      split
      · exact hr
      · exact atMostOneUnused_issue hr _ secret now _
    · show atMostOneUnused (send_password_reset_email s email secret now).verifTokens
      unfold send_password_reset_email
      split
      · exact hv
      · exact hv
  | resetPassword secret np now =>
    constructor
    · show atMostOneUnused (reset_password hash s secret np now).2.resetTokens
      unfold reset_password
      split
      · exact hr
      · intro uid
        exact le_trans (unusedCount_markUsed_le _ _ _ _) (hr uid)
    · show atMostOneUnused (reset_password hash s secret np now).2.verifTokens
      unfold reset_password
      split
      · exact hv
      · exact hv
  | cleanupExpiredTokens now =>
    constructor
    · intro uid
      exact le_trans (unusedCount_filter_le _ _ _) (hr uid)
    · intro uid
      exact le_trans (unusedCount_filter_le _ _ _) (hv uid)

theorem atMostOneUnused_applyOps (hash : String → String) {s : AuthState}
    (hr : atMostOneUnused s.resetTokens) (hv : atMostOneUnused s.verifTokens)
    (ops : List AuthOp) :
    atMostOneUnused ((applyOps hash s ops).resetTokens) ∧
    atMostOneUnused ((applyOps hash s ops).verifTokens) := by
  induction ops generalizing s with
  | nil => exact ⟨hr, hv⟩
  | cons op rest ih =>
    have h1 := atMostOneUnused_applyOp hash hr hv op
    exact ih h1.1 h1.2

/-- Invalidating a user's unused tokens covers every row carrying the
secret of one of their unused tokens (under the unique-token constraint). -/
theorem noUnusedSecret_invalidate_of_covers {ts : List TokenRec}
    {tk : TokenRec} (htk : tk ∈ ts) (hunused : tk.usedAt = none)
    (huniq : ∀ t ∈ ts, t.token = tk.token → t = tk) (now : Nat) :
    noUnusedSecret (invalidateUnused ts tk.user now) tk.token := by
  intro t ht htok
  simp only [invalidateUnused, List.mem_map] at ht
  obtain ⟨t0, ht0, heq⟩ := ht
  by_cases hc : t0.user = tk.user ∧ t0.usedAt = none
  · rw [if_pos hc] at heq
    subst heq
    simp
  · rw [if_neg hc] at heq
    subst heq
    have h0 := huniq t0 ht0 htok
    subst h0
    exact absurd ⟨rfl, hunused⟩ hc

theorem tokenExists_invalidateUnused (ts : List TokenRec) (uid now : Nat)
    (sec : String) :
    tokenExists (invalidateUnused ts uid now) sec = tokenExists ts sec := by
  induction ts with
  | nil => rfl
  | cons t rest ih =>
    simp only [tokenExists, invalidateUnused, List.map_cons,
      List.any_cons] at *
    by_cases hc : t.user = uid ∧ t.usedAt = none
    · rw [if_pos hc]
      simp [ih]
    · rw [if_neg hc]
      simp [ih]

/-- `createToken` never resurrects a fully-consumed secret: either the new
secret differs, or the row with the old secret still exists and the DB
unique constraint rejects the insert. -/
theorem noUnusedSecret_createToken_exists {ts : List TokenRec} {sec : String}
    (h : noUnusedSecret ts sec) (hex : tokenExists ts sec = true)
    (uid : Nat) (sec' : String) (now exp : Nat) :
    noUnusedSecret (createToken ts uid sec' now exp) sec := by
  by_cases hss : sec' = sec
  · subst hss
    unfold createToken
    rw [hex]
    simpa using h
  · exact noUnusedSecret_createToken h hss uid now exp

theorem tokenExists_of_mem {ts : List TokenRec} {tk : TokenRec}
    (h : tk ∈ ts) : tokenExists ts tk.token = true := by
  unfold tokenExists
  rw [List.any_eq_true]
  exact ⟨tk, h, by simp⟩

/-- C2: issuing a token first sets `usedAt` on all of the user's unused
tokens of the same kind, so that (a) after any operation sequence from an
empty token store, at most one token per (userId, kind) is live (unused
and unexpired) at any instant, and (b) a previously issued, unexpired,
unused token becomes permanently unusable after a second issuance of the
same kind, for both the PasswordReset and EmailVerification kinds. -/
theorem issuance_invalidates_prior_tokens (hash : String → String)
    (users0 : List UserRec) (emails0 : List (String × Nat))
    (ops : List AuthOp) :
    ((∀ uid now,
        liveCount ((applyOps hash ⟨users0, [], [], emails0⟩ ops).resetTokens)
          uid now ≤ 1) ∧
     (∀ uid now,
        liveCount ((applyOps hash ⟨users0, [], [], emails0⟩ ops).verifTokens)
          uid now ≤ 1)) ∧
    (∀ (s : AuthState) (tk : TokenRec) (email sec' : String) (now : Nat)
        (u : UserRec),
      tk ∈ s.resetTokens → tk.usedAt = none →
      (∀ t ∈ s.resetTokens, t.token = tk.token → t = tk) →
      findActiveUser s.users email = some u → u.uid = tk.user →
      ∀ (ops' : List AuthOp),
        (∀ op ∈ ops', ¬ issuesResetSecret tk.token op) →
      ∀ (np' : String) (now' : Nat),
      (reset_password hash
        (applyOps hash (send_password_reset_email s email sec' now) ops')
        tk.token np' now').1 = false) ∧
    (∀ (s : AuthState) (tk : TokenRec) (sec' : String) (now : Nat),
      tk ∈ s.verifTokens → tk.usedAt = none →
      (∀ t ∈ s.verifTokens, t.token = tk.token → t = tk) →
      ∀ (ops' : List AuthOp),
        (∀ op ∈ ops', ¬ issuesVerifSecret tk.token op) →
      ∀ (now' : Nat),
      (verify_email
        (applyOps hash (send_verification_email s tk.user sec' now) ops')
        tk.token now').1 = false) := by
  have hinv := atMostOneUnused_applyOps hash
    (s := ⟨users0, [], [], emails0⟩)
    (fun u => by simp [unusedCount]) (fun u => by simp [unusedCount]) ops
  refine ⟨⟨?_, ?_⟩, ?_, ?_⟩
  · intro uid now
    exact le_trans (liveCount_le_unusedCount _ _ _) (hinv.1 uid)
  · intro uid now
    exact le_trans (liveCount_le_unusedCount _ _ _) (hinv.2 uid)
  · intro s tk email sec' now u htk hunused huniq hfind huid ops' hops' np' now'
    have h0 : noUnusedSecret
        ((send_password_reset_email s email sec' now).resetTokens) tk.token := by
      unfold send_password_reset_email
      rw [hfind]
      show noUnusedSecret
        (createToken (invalidateUnused s.resetTokens u.uid now) u.uid sec' now
          (now + PASSWORD_RESET_EXPIRY_HOURS * secondsPerHour)) tk.token
      rw [huid]
      exact noUnusedSecret_createToken_exists
        (noUnusedSecret_invalidate_of_covers htk hunused huniq now)
        (by rw [tokenExists_invalidateUnused]; exact tokenExists_of_mem htk)
        tk.user sec' now _
    have h1 := noUnusedSecret_applyOps hash h0 ops' hops'
    rw [reset_password_of_find_none hash _
      (findValidToken_eq_none_of_noUnusedSecret h1 now') np']
  · intro s tk sec' now htk hunused huniq ops' hops' now'
    have h0 : noUnusedSecret
        ((send_verification_email s tk.user sec' now).verifTokens) tk.token := by
      show noUnusedSecret
        (createToken (invalidateUnused s.verifTokens tk.user now) tk.user sec' now
          (now + EMAIL_VERIFICATION_EXPIRY_HOURS * secondsPerHour)) tk.token
      exact noUnusedSecret_createToken_exists
        (noUnusedSecret_invalidate_of_covers htk hunused huniq now)
        (by rw [tokenExists_invalidateUnused]; exact tokenExists_of_mem htk)
        tk.user sec' now _
    have h1 := noUnusedSecret_applyOps_verif hash h0 ops' hops'
    rw [verify_email_of_find_none _
      (findValidToken_eq_none_of_noUnusedSecret h1 now')]

/-- Witness for C2 at concrete states: the invariant bound after a
concrete operation sequence, and a live token of each kind dead after a
second issuance of the same kind. -/
theorem issuance_invalidates_prior_tokens_witness :
    liveCount ((applyOps id
      ⟨[⟨1, "a@b.com", "h", true, false⟩], [], [],
        []⟩ [AuthOp.sendPasswordResetEmail "a@b.com" "t1" 0]).resetTokens)
      1 50 ≤ 1 ∧
    (reset_password id
      (applyOps id
        (send_password_reset_email
          ⟨[⟨1, "a@b.com", "h", true, false⟩],
           [⟨1, "tok1", 0, 100, none⟩], [], []⟩ "a@b.com" "tok2" 10)
        []) "tok1" "np" 20).1 = false ∧
    (verify_email
      (applyOps id
        (send_verification_email
          ⟨[⟨1, "a@b.com", "h", true, false⟩], [],
           [⟨1, "vtok1", 0, 100, none⟩], []⟩ 1 "vtok2" 10)
        []) "vtok1" 20).1 = false :=
  ⟨(issuance_invalidates_prior_tokens id
      [⟨1, "a@b.com", "h", true, false⟩] []
      [AuthOp.sendPasswordResetEmail "a@b.com" "t1" 0]).1.1 1 50,
   (issuance_invalidates_prior_tokens id [] [] []).2.1
      ⟨[⟨1, "a@b.com", "h", true, false⟩],
       [⟨1, "tok1", 0, 100, none⟩], [], []⟩
      ⟨1, "tok1", 0, 100, none⟩ "a@b.com" "tok2" 10
      ⟨1, "a@b.com", "h", true, false⟩
      (by decide) (by decide) (by decide) (by decide) (by decide)
      [] (by decide) "np" 20,
   (issuance_invalidates_prior_tokens id [] [] []).2.2
      ⟨[⟨1, "a@b.com", "h", true, false⟩], [],
       [⟨1, "vtok1", 0, 100, none⟩], []⟩
      ⟨1, "vtok1", 0, 100, none⟩ "vtok2" 10
      (by decide) (by decide) (by decide)
      [] (by decide) 20⟩

/-! ### View-layer characterizations -/

theorem passwordResetConfirmPost_of_find_none (hash : String → String)
    (s : AuthState) {sec : String} {now : Nat}
    (hf : findValidToken s.resetTokens sec now = none) (np : String) :
    passwordResetConfirmPost hash s sec np now =
      (⟨400, "Invalid or expired token."⟩, s) := by
  unfold passwordResetConfirmPost
  rw [reset_password_of_find_none hash s hf np]
  rfl

theorem passwordResetConfirmPost_of_find_some (hash : String → String)
    (s : AuthState) {sec : String} {now : Nat} {tk : TokenRec}
    (hf : findValidToken s.resetTokens sec now = some tk) (np : String) :
    passwordResetConfirmPost hash s sec np now =
      (⟨200, "Password reset successfully."⟩,
        { s with
          resetTokens := markUsed s.resetTokens sec now,
          users := s.users.map fun u =>
            if u.uid = tk.user then { u with passwordHash := hash np } else u }) := by
  unfold passwordResetConfirmPost
  rw [reset_password_of_find_some hash s hf np]
  rfl

theorem emailVerificationPost_of_find_none (s : AuthState) {sec : String}
    {now : Nat} (hf : findValidToken s.verifTokens sec now = none) :
    emailVerificationPost s sec now =
      (⟨400, "Invalid or expired token."⟩, s) := by
  unfold emailVerificationPost
  rw [verify_email_of_find_none s hf]
  rfl

/-- C3: `requestPasswordReset` answers the identical success response
whatever the state and whether or not the email resolves; when it does
not resolve, the state is unchanged — no token row is created and no
notification is dispatched. -/
theorem request_password_reset_uniform (s : AuthState)
    (email secret : String) (now : Nat) :
    (passwordResetRequestPost s email secret now).1 =
      ⟨200, "If an account exists, a password reset email has been sent."⟩ ∧
    (∀ s' : AuthState, ∀ secret' : String,
      (passwordResetRequestPost s email secret now).1 =
        (passwordResetRequestPost s' email secret' now).1) ∧
    (findActiveUser s.users email = none →
      (passwordResetRequestPost s email secret now).2 = s) := by
  refine ⟨rfl, fun s' secret' => rfl, ?_⟩
  intro h
  show send_password_reset_email s email secret now = s
  unfold send_password_reset_email
  rw [h]

/-- Witness for C3: a state that does not resolve the email is returned
unchanged (no reset token issued, no mail sent). -/
theorem request_password_reset_uniform_witness :
    (passwordResetRequestPost ⟨[], [], [], []⟩ "x@y.com" "t" 0).2 =
      ⟨[], [], [], []⟩ :=
  (request_password_reset_uniform ⟨[], [], [], []⟩ "x@y.com" "t" 0).2.2
    (by decide)

/-- C4: whenever no token matches (secret, unused, unexpired) — whether
the secret never existed, its token expired, or it was already used or
invalidated — consume answers the one undifferentiated 400
invalid-or-expired response of its kind and leaves the state unchanged. -/
theorem invalid_token_uniform_error (hash : String → String) (s : AuthState)
    (sec np : String) (now : Nat) :
    (findValidToken s.resetTokens sec now = none →
      passwordResetConfirmPost hash s sec np now =
        (⟨400, "Invalid or expired token."⟩, s)) ∧
    (findValidToken s.verifTokens sec now = none →
      emailVerificationPost s sec now =
        (⟨400, "Invalid or expired token."⟩, s)) :=
  ⟨fun h => passwordResetConfirmPost_of_find_none hash s h np,
   fun h => emailVerificationPost_of_find_none s h⟩

/-- Witness for C4: the caller-observable response is identical at a
secret that never existed, one whose token is expired, and one whose
token was already used. -/
theorem invalid_token_uniform_error_witness :
    passwordResetConfirmPost id ⟨[], [], [], []⟩ "s" "np" 10 =
      (⟨400, "Invalid or expired token."⟩, ⟨[], [], [], []⟩) ∧
    passwordResetConfirmPost id ⟨[], [⟨1, "s", 0, 5, none⟩], [], []⟩
        "s" "np" 10 =
      (⟨400, "Invalid or expired token."⟩,
        ⟨[], [⟨1, "s", 0, 5, none⟩], [], []⟩) ∧
    passwordResetConfirmPost id ⟨[], [⟨1, "s", 0, 100, some 3⟩], [], []⟩
        "s" "np" 10 =
      (⟨400, "Invalid or expired token."⟩,
        ⟨[], [⟨1, "s", 0, 100, some 3⟩], [], []⟩) ∧
    emailVerificationPost ⟨[], [], [⟨1, "s", 0, 5, none⟩], []⟩ "s" 10 =
      (⟨400, "Invalid or expired token."⟩,
        ⟨[], [], [⟨1, "s", 0, 5, none⟩], []⟩) :=
  ⟨(invalid_token_uniform_error id ⟨[], [], [], []⟩ "s" "np" 10).1 (by decide),
   (invalid_token_uniform_error id ⟨[], [⟨1, "s", 0, 5, none⟩], [], []⟩
      "s" "np" 10).1 (by decide),
   (invalid_token_uniform_error id ⟨[], [⟨1, "s", 0, 100, some 3⟩], [], []⟩
      "s" "np" 10).1 (by decide),
   (invalid_token_uniform_error id ⟨[], [], [⟨1, "s", 0, 5, none⟩], []⟩
      "s" "np" 10).2 (by decide)⟩

/-- C5: a newly issued token's `expiresAt` equals its `createdAt`
(= issuance time) plus exactly the kind's TTL: 24 hours for
PasswordReset, 72 hours for EmailVerification. -/
theorem token_expiry_equals_ttl (s : AuthState) (now : Nat) :
    PASSWORD_RESET_EXPIRY_HOURS = 24 ∧
    EMAIL_VERIFICATION_EXPIRY_HOURS = 72 ∧
    (∀ (email sec : String) (u : UserRec),
      findActiveUser s.users email = some u →
      tokenExists (invalidateUnused s.resetTokens u.uid now) sec = false →
      ∃ tk : TokenRec,
        tk ∈ (send_password_reset_email s email sec now).resetTokens ∧
        tk.token = sec ∧ tk.createdAt = now ∧
        tk.expiresAt = tk.createdAt + PASSWORD_RESET_EXPIRY_HOURS * secondsPerHour) ∧
    (∀ (sec : String) (uid : Nat),
      tokenExists (invalidateUnused s.verifTokens uid now) sec = false →
      ∃ tk : TokenRec,
        tk ∈ (send_verification_email s uid sec now).verifTokens ∧
        tk.token = sec ∧ tk.createdAt = now ∧
        tk.expiresAt = tk.createdAt + EMAIL_VERIFICATION_EXPIRY_HOURS * secondsPerHour) := by
  refine ⟨rfl, rfl, ?_, ?_⟩
  · intro email sec u hfind hex
    refine ⟨⟨u.uid, sec, now,
      now + PASSWORD_RESET_EXPIRY_HOURS * secondsPerHour, none⟩, ?_, rfl, rfl, rfl⟩
    unfold send_password_reset_email
    rw [hfind]
    show _ ∈ createToken (invalidateUnused s.resetTokens u.uid now) u.uid sec now
      (now + PASSWORD_RESET_EXPIRY_HOURS * secondsPerHour)
    unfold createToken
    rw [hex]
    simp
  · intro sec uid hex
    refine ⟨⟨uid, sec, now,
      now + EMAIL_VERIFICATION_EXPIRY_HOURS * secondsPerHour, none⟩, ?_, rfl, rfl, rfl⟩
    show _ ∈ createToken (invalidateUnused s.verifTokens uid now) uid sec now
      (now + EMAIL_VERIFICATION_EXPIRY_HOURS * secondsPerHour)
    unfold createToken
    rw [hex]
    simp

/-- Witness for C5: concrete issuances create tokens expiring exactly
24 h (reset) and 72 h (verification) after creation. -/
theorem token_expiry_equals_ttl_witness :
    (∃ tk : TokenRec,
      tk ∈ (send_password_reset_email
        ⟨[⟨1, "a@b.com", "h", true, false⟩], [], [], []⟩
        "a@b.com" "r1" 1000).resetTokens ∧
      tk.token = "r1" ∧ tk.createdAt = 1000 ∧
      tk.expiresAt = tk.createdAt + PASSWORD_RESET_EXPIRY_HOURS * secondsPerHour) ∧
    (∃ tk : TokenRec,
      tk ∈ (send_verification_email
        ⟨[⟨1, "a@b.com", "h", true, false⟩], [], [], []⟩
        1 "v1" 1000).verifTokens ∧
      tk.token = "v1" ∧ tk.createdAt = 1000 ∧
      tk.expiresAt = tk.createdAt + EMAIL_VERIFICATION_EXPIRY_HOURS * secondsPerHour) :=
  ⟨(token_expiry_equals_ttl
      ⟨[⟨1, "a@b.com", "h", true, false⟩], [], [], []⟩ 1000).2.2.1
      "a@b.com" "r1" ⟨1, "a@b.com", "h", true, false⟩ (by decide) (by decide),
   (token_expiry_equals_ttl
      ⟨[⟨1, "a@b.com", "h", true, false⟩], [], [], []⟩ 1000).2.2.2
      "v1" 1 (by decide)⟩

/-- C6: `confirmPasswordReset` on an unused, unexpired token answers 200,
sets that token's `usedAt`, and sets the owning user's `passwordHash` to
the hash of the new password; on any secret with no valid token it
answers the uniform 400 invalid-or-expired error and changes neither user
nor token state. -/
theorem confirm_password_reset_behavior (hash : String → String)
    (s : AuthState) (sec np : String) (now : Nat) :
    (∀ tk : TokenRec, findValidToken s.resetTokens sec now = some tk →
      (passwordResetConfirmPost hash s sec np now).1 =
        ⟨200, "Password reset successfully."⟩ ∧
      ({ tk with usedAt := some now } : TokenRec) ∈
        (passwordResetConfirmPost hash s sec np now).2.resetTokens ∧
      (∀ u ∈ (passwordResetConfirmPost hash s sec np now).2.users,
        u.uid = tk.user → u.passwordHash = hash np)) ∧
    (findValidToken s.resetTokens sec now = none →
      passwordResetConfirmPost hash s sec np now =
        (⟨400, "Invalid or expired token."⟩, s)) := by
  constructor
  · intro tk hf
    have hchar := passwordResetConfirmPost_of_find_some hash s hf np
    have hmem : tk ∈ s.resetTokens := List.mem_of_find?_eq_some hf
    have hp := List.find?_some hf
    rw [hchar]
    refine ⟨rfl, ?_, ?_⟩
    · show ({ tk with usedAt := some now } : TokenRec) ∈ markUsed s.resetTokens sec now
      unfold markUsed
      refine List.mem_map.mpr ⟨tk, hmem, ?_⟩
      rw [if_pos hp]
    · intro u hu huid
      simp only [List.mem_map] at hu
      obtain ⟨u0, hu0, hequ⟩ := hu
      by_cases hc : u0.uid = tk.user
      · rw [if_pos hc] at hequ
        subst hequ
        rfl
      · rw [if_neg hc] at hequ
        subst hequ
        exact absurd huid hc
  · intro h
    exact passwordResetConfirmPost_of_find_none hash s h np

/-- Witness for C6: a concrete valid token yields 200, a used token row,
and the updated password hash; the same call with a wrong secret yields
the uniform 400 and an unchanged state. -/
theorem confirm_password_reset_behavior_witness :
    ((passwordResetConfirmPost (fun p => p ++ "#h")
        ⟨[⟨1, "a@b.com", "old", true, false⟩],
         [⟨1, "sec1", 0, 100, none⟩], [], []⟩ "sec1" "NewPass1" 10).1 =
      ⟨200, "Password reset successfully."⟩ ∧
     ({ user := 1, token := "sec1", createdAt := 0, expiresAt := 100,
        usedAt := some 10 } : TokenRec) ∈
       (passwordResetConfirmPost (fun p => p ++ "#h")
         ⟨[⟨1, "a@b.com", "old", true, false⟩],
          [⟨1, "sec1", 0, 100, none⟩], [], []⟩ "sec1" "NewPass1" 10).2.resetTokens ∧
     (∀ u ∈ (passwordResetConfirmPost (fun p => p ++ "#h")
         ⟨[⟨1, "a@b.com", "old", true, false⟩],
          [⟨1, "sec1", 0, 100, none⟩], [], []⟩ "sec1" "NewPass1" 10).2.users,
       u.uid = 1 → u.passwordHash = "NewPass1" ++ "#h")) ∧
    passwordResetConfirmPost (fun p => p ++ "#h")
        ⟨[⟨1, "a@b.com", "old", true, false⟩],
         [⟨1, "sec1", 0, 100, none⟩], [], []⟩ "wrong" "NewPass1" 10 =
      (⟨400, "Invalid or expired token."⟩,
        ⟨[⟨1, "a@b.com", "old", true, false⟩],
         [⟨1, "sec1", 0, 100, none⟩], [], []⟩) :=
  ⟨(confirm_password_reset_behavior (fun p => p ++ "#h")
      ⟨[⟨1, "a@b.com", "old", true, false⟩],
       [⟨1, "sec1", 0, 100, none⟩], [], []⟩ "sec1" "NewPass1" 10).1
      ⟨1, "sec1", 0, 100, none⟩ (by decide),
   (confirm_password_reset_behavior (fun p => p ++ "#h")
      ⟨[⟨1, "a@b.com", "old", true, false⟩],
       [⟨1, "sec1", 0, 100, none⟩], [], []⟩ "wrong" "NewPass1" 10).2
      (by decide)⟩

/-- C7: login with the correct email and password of an active user whose
`emailVerified` flag is false succeeds and returns an access and refresh
token pair — email verification is not a precondition of authentication
(`emailVerified` is never consulted on the login path). -/
theorem login_ignores_email_verification (verify : String → String → Bool)
    (mintAccess mintRefresh : Nat → String) (users : List UserRec)
    (email password : String) (u : UserRec)
    (hfind : users.find? (fun x => x.email = toLowerStr email) = some u)
    (hactive : u.isActive = true)
    (hverified : u.emailVerified = false)
    (hpw : verify password u.passwordHash = true) :
    login verify mintAccess mintRefresh users email password =
      .success (mintAccess u.uid) (mintRefresh u.uid) u := by
  unfold login
  rw [hfind]
  show (if u.isActive = true then
      if verify password u.passwordHash = true then
        LoginResult.success (mintAccess u.uid) (mintRefresh u.uid) u
      else LoginResult.authenticationFailed
    else LoginResult.authenticationFailed) =
    LoginResult.success (mintAccess u.uid) (mintRefresh u.uid) u
  rw [if_pos hactive, if_pos hpw]

/-- Witness for C7: a concrete active, unverified user logs in
successfully with the correct credentials. -/
theorem login_ignores_email_verification_witness :
    login (fun p h => p == h) (fun _ => "acc") (fun _ => "ref")
      [⟨1, "a@b.com", "pw", true, false⟩] "a@B.com" "pw" =
      .success "acc" "ref" ⟨1, "a@b.com", "pw", true, false⟩ :=
  login_ignores_email_verification (fun p h => p == h)
    (fun _ => "acc") (fun _ => "ref")
    [⟨1, "a@b.com", "pw", true, false⟩] "a@B.com" "pw"
    ⟨1, "a@b.com", "pw", true, false⟩
    (by decide) (by decide) (by decide) (by decide)

/-! ### Rate limiter lemmas -/

theorem rlGet_rlSet (rl : RateLimiter) (key : String) (st : ThrottleState) :
    rlGet (rlSet rl key st) key = some st := by
  simp [rlGet, rlSet, List.find?_cons]

/-- Running further requests of one key, all inside the window opened at
`t0`, leaves the window start at `t0` and drives the count to
`min (c + n) limit`. -/
theorem runThrottle_state (limit window : Nat) (key : String) :
    ∀ (ts : List Nat) (rl : RateLimiter) (t0 c : Nat),
      rlGet rl key = some ⟨t0, c⟩ → c ≤ limit →
      (∀ t ∈ ts, t < t0 + window) →
      rlGet (runThrottle limit window rl key ts).2 key =
        some ⟨t0, min (c + ts.length) limit⟩ := by
  intro ts
  induction ts with
  | nil =>
    intro rl t0 c hget hc hts
    show rlGet rl key = some ⟨t0, min (c + 0) limit⟩
    rw [hget]
    congr 2
    omega
  | cons t rest ih =>
    intro rl t0 c hget hc hts
    show rlGet (runThrottle limit window
      (tryAcquireKey limit window rl key t).2 key rest).2 key = _
    have hstep : (tryAcquireKey limit window rl key t).2 =
        rlSet rl key (tryAcquire limit window (rlGet rl key) t).2 := rfl
    rw [hstep, hget]
    have hnores : ¬ t0 + window ≤ t := by
      have := hts t (by simp)
      omega
    by_cases hcnt : c < limit
    · have hacq : (tryAcquire limit window (some ⟨t0, c⟩) t).2 = ⟨t0, c + 1⟩ := by
        show (if t0 + window ≤ t then (ThrottleResult.allowed, (⟨t, 1⟩ : ThrottleState))
          else if c < limit then (ThrottleResult.allowed, (⟨t0, c + 1⟩ : ThrottleState))
          else (ThrottleResult.rejected, ⟨t0, c⟩)).2 = ⟨t0, c + 1⟩
        rw [if_neg hnores, if_pos hcnt]
      rw [hacq]
      have := ih (rlSet rl key ⟨t0, c + 1⟩) t0 (c + 1)
        (rlGet_rlSet rl key _) (by omega)
        (fun x hx => hts x (by simp [hx]))
      rw [this]
      congr 2
      simp only [List.length_cons]
      omega
    · have hacq : (tryAcquire limit window (some ⟨t0, c⟩) t).2 = ⟨t0, c⟩ := by
        show (if t0 + window ≤ t then (ThrottleResult.allowed, (⟨t, 1⟩ : ThrottleState))
          else if c < limit then (ThrottleResult.allowed, (⟨t0, c + 1⟩ : ThrottleState))
          else (ThrottleResult.rejected, ⟨t0, c⟩)).2 = ⟨t0, c⟩
        rw [if_neg hnores, if_neg hcnt]
      rw [hacq]
      have := ih (rlSet rl key ⟨t0, c⟩) t0 c
        (rlGet_rlSet rl key _) hc
        (fun x hx => hts x (by simp [hx]))
      rw [this]
      congr 2
      simp only [List.length_cons]
      omega

/-- C8: for every source key, starting from no recorded window, a first
request at `t0` followed by at least `limit - 1` further requests inside
the window drives the key's counter to `limit`; the next request inside
the window (the (limit+1)-th or later) is rejected, while a request once
the window has elapsed is allowed.  The limits applied in views.py are
5/hour for registration and 3/hour for password-reset requests. -/
theorem rate_limiter_window_bounds (limit window : Nat) (key : String)
    (rl : RateLimiter) (t0 : Nat) (ts : List Nat) :
    parseRate RegistrationThrottle_rate = (5, secondsPerHour) ∧
    parseRate PasswordResetThrottle_rate = (3, secondsPerHour) ∧
    (rlGet rl key = none → 0 < limit → limit ≤ ts.length + 1 →
      (∀ t ∈ ts, t < t0 + window) →
      (∀ tnext : Nat, tnext < t0 + window →
        (tryAcquireKey limit window
          (runThrottle limit window rl key (t0 :: ts)).2 key tnext).1 =
          .rejected) ∧
      (∀ tafter : Nat, t0 + window ≤ tafter →
        (tryAcquireKey limit window
          (runThrottle limit window rl key (t0 :: ts)).2 key tafter).1 =
          .allowed)) := by
  refine ⟨by decide, by decide, ?_⟩
  intro hget hlim hlen hts
  have hstate : rlGet (runThrottle limit window rl key (t0 :: ts)).2 key =
      some ⟨t0, limit⟩ := by
    show rlGet (runThrottle limit window
      (tryAcquireKey limit window rl key t0).2 key ts).2 key = _
    have hstep : (tryAcquireKey limit window rl key t0).2 =
        rlSet rl key (tryAcquire limit window (rlGet rl key) t0).2 := rfl
    rw [hstep, hget]
    have hacq : (tryAcquire limit window none t0).2 = ⟨t0, 1⟩ := rfl
    rw [hacq]
    have := runThrottle_state limit window key ts
      (rlSet rl key ⟨t0, 1⟩) t0 1 (rlGet_rlSet rl key _) hlim hts
    rw [this]
    congr 2
    omega
  constructor
  · intro tnext hnext
    show (tryAcquire limit window
      (rlGet (runThrottle limit window rl key (t0 :: ts)).2 key) tnext).1 = _
    rw [hstate]
    show (if t0 + window ≤ tnext then (ThrottleResult.allowed, (⟨tnext, 1⟩ : ThrottleState))
      else if limit < limit then (ThrottleResult.allowed, (⟨t0, limit + 1⟩ : ThrottleState))
      else (ThrottleResult.rejected, ⟨t0, limit⟩)).1 = ThrottleResult.rejected
    rw [if_neg (by omega), if_neg (by omega)]
  · intro tafter hafter
    show (tryAcquire limit window
      (rlGet (runThrottle limit window rl key (t0 :: ts)).2 key) tafter).1 = _
    rw [hstate]
    show (if t0 + window ≤ tafter then (ThrottleResult.allowed, (⟨tafter, 1⟩ : ThrottleState))
      else if limit < limit then (ThrottleResult.allowed, (⟨t0, limit + 1⟩ : ThrottleState))
      else (ThrottleResult.rejected, ⟨t0, limit⟩)).1 = ThrottleResult.allowed
    rw [if_pos hafter]

/-- Witness for C8 with the password-reset limit 3/hour: the 4th request
inside the hour is rejected, a request after the hour is allowed. -/
theorem rate_limiter_window_bounds_witness :
    (tryAcquireKey 3 3600
      (runThrottle 3 3600 [] "10.0.0.1" [0, 10, 20]).2 "10.0.0.1" 30).1 =
      ThrottleResult.rejected ∧
    (tryAcquireKey 3 3600
      (runThrottle 3 3600 [] "10.0.0.1" [0, 10, 20]).2 "10.0.0.1" 3600).1 =
      ThrottleResult.allowed :=
  ⟨((rate_limiter_window_bounds 3 3600 "10.0.0.1" [] 0 [10, 20]).2.2
      (by decide) (by decide) (by decide) (by decide)).1 30 (by decide),
   ((rate_limiter_window_bounds 3 3600 "10.0.0.1" [] 0 [10, 20]).2.2
      (by decide) (by decide) (by decide) (by decide)).2 3600 (by decide)⟩

/-! ### Cleanup is garbage collection only -/

theorem find?_filter_eq {α : Type} (l : List α) (p q : α → Bool)
    (h : ∀ a ∈ l, p a = true → q a = true) :
    (l.filter q).find? p = l.find? p := by
  induction l with
  | nil => rfl
  | cons a rest ih =>
    have ih' := ih (fun x hx => h x (by simp [hx]))
    by_cases hq : q a = true
    · rw [List.filter_cons_of_pos hq]
      by_cases hp : p a = true
      · rw [List.find?_cons_of_pos _ hp, List.find?_cons_of_pos _ hp]
      · rw [List.find?_cons_of_neg _ hp, List.find?_cons_of_neg _ hp]
        exact ih'
    · have hp : ¬ p a = true := fun hp => hq (h a (by simp) hp)
      rw [List.filter_cons_of_neg hq, List.find?_cons_of_neg _ hp]
      exact ih'

/-- The validator lookup is unchanged by deleting rows that expired at or
before the lookup time. -/
theorem findValidToken_cleanup (ts : List TokenRec) (sec : String)
    {t now : Nat} (h : t ≤ now) :
    findValidToken (ts.filter fun tk => ¬ tk.expiresAt < t) sec now =
      findValidToken ts sec now := by
  unfold findValidToken
  apply find?_filter_eq
  intro a _ hp
  simp only [Bool.and_eq_true, decide_eq_true_eq] at hp
  simp only [decide_eq_true_eq]
  omega

/-- C9: `cleanup_expired_tokens` deletes exactly the rows with
`expiresAt < now` and has no semantic effect: the result of a later
consume of either kind is identical whether or not the cleanup ran,
because validation already rejects expired tokens. -/
theorem cleanup_is_pure_gc (hash : String → String) (s : AuthState)
    (t now : Nat) (h : t ≤ now) (sec np : String) :
    (∀ tk : TokenRec, tk ∈ (cleanup_expired_tokens s t).resetTokens ↔
       (tk ∈ s.resetTokens ∧ ¬ tk.expiresAt < t)) ∧
    (∀ tk : TokenRec, tk ∈ (cleanup_expired_tokens s t).verifTokens ↔
       (tk ∈ s.verifTokens ∧ ¬ tk.expiresAt < t)) ∧
    (reset_password hash (cleanup_expired_tokens s t) sec np now).1 =
      (reset_password hash s sec np now).1 ∧
    (verify_email (cleanup_expired_tokens s t) sec now).1 =
      (verify_email s sec now).1 := by
  refine ⟨?_, ?_, ?_, ?_⟩
  · intro tk
    simp [cleanup_expired_tokens, List.mem_filter]
  · intro tk
    simp [cleanup_expired_tokens, List.mem_filter]
  · have hfr : findValidToken ((cleanup_expired_tokens s t).resetTokens) sec now =
        findValidToken s.resetTokens sec now :=
      findValidToken_cleanup s.resetTokens sec h
    cases hf : findValidToken s.resetTokens sec now with
    | none =>
      rw [reset_password_of_find_none hash _ (by rw [hfr, hf]) np,
        reset_password_of_find_none hash _ hf np]
    | some tk =>
      rw [reset_password_of_find_some hash _ (by rw [hfr, hf]) np,
        reset_password_of_find_some hash _ hf np]
  · have hfv : findValidToken ((cleanup_expired_tokens s t).verifTokens) sec now =
        findValidToken s.verifTokens sec now :=
      findValidToken_cleanup s.verifTokens sec h
    cases hf : findValidToken s.verifTokens sec now with
    | none =>
      rw [verify_email_of_find_none _ (by rw [hfv, hf]),
        verify_email_of_find_none _ hf]
    | some tk =>
      rw [verify_email_of_find_some _ (by rw [hfv, hf]),
        verify_email_of_find_some _ hf]

/-- Witness for C9: with one expired and one live token, cleanup at t=50
removes only the expired row, and consume of the live secret at t=60
succeeds identically with or without the prior cleanup. -/
theorem cleanup_is_pure_gc_witness :
    ((⟨1, "live", 0, 100, none⟩ : TokenRec) ∈
      (cleanup_expired_tokens
        ⟨[], [⟨1, "dead", 0, 10, none⟩, ⟨1, "live", 0, 100, none⟩], [], []⟩
        50).resetTokens ↔
      ((⟨1, "live", 0, 100, none⟩ : TokenRec) ∈
        [(⟨1, "dead", 0, 10, none⟩ : TokenRec), ⟨1, "live", 0, 100, none⟩] ∧
        ¬ (100 : Nat) < 50)) ∧
    (reset_password id
      (cleanup_expired_tokens
        ⟨[], [⟨1, "dead", 0, 10, none⟩, ⟨1, "live", 0, 100, none⟩], [], []⟩
        50) "live" "np" 60).1 =
      (reset_password id
        ⟨[], [⟨1, "dead", 0, 10, none⟩, ⟨1, "live", 0, 100, none⟩], [], []⟩
        "live" "np" 60).1 :=
  ⟨(cleanup_is_pure_gc id
      ⟨[], [⟨1, "dead", 0, 10, none⟩, ⟨1, "live", 0, 100, none⟩], [], []⟩
      50 60 (by decide) "live" "np").1 ⟨1, "live", 0, 100, none⟩,
   (cleanup_is_pure_gc id
      ⟨[], [⟨1, "dead", 0, 10, none⟩, ⟨1, "live", 0, 100, none⟩], [], []⟩
      50 60 (by decide) "live" "np").2.2.1⟩

/-- C10: `LogoutView.post` with no refresh token in the request body
answers the 200 success response and leaves the session state unchanged
(nothing revoked or blacklisted), in contrast to the 400 failure that an
unknown or already-blacklisted refresh token produces. -/
theorem logout_without_token_succeeds (st : SessionState) :
    logoutPost st none = (⟨200, "Logged out successfully."⟩, st) ∧
    (∀ rt : String, rt ≠ "" →
      (rt ∉ st.validRefresh ∨ rt ∈ st.blacklisted) →
      logoutPost st (some rt) = (⟨400, "Invalid token."⟩, st)) := by
  constructor
  · rfl
  · intro rt hne hbad
    have hc : ¬ (rt ∈ st.validRefresh ∧ rt ∉ st.blacklisted) := by
      rintro ⟨hv, hb⟩
      rcases hbad with hh | hh
      · exact hh hv
      · exact hb hh
    show (if rt = "" then ((⟨200, "Logged out successfully."⟩ : HttpResponse), st)
      else if rt ∈ st.validRefresh ∧ rt ∉ st.blacklisted then
        ((⟨200, "Logged out successfully."⟩ : HttpResponse),
          { st with blacklisted := st.blacklisted ++ [rt] })
      else ((⟨400, "Invalid token."⟩ : HttpResponse), st)) =
      ((⟨400, "Invalid token."⟩ : HttpResponse), st)
    rw [if_neg hne, if_neg hc]

/-- Witness for C10: missing refresh token yields 200 with unchanged
state; an unknown refresh token yields 400. -/
theorem logout_without_token_succeeds_witness :
    logoutPost ⟨["r1"], []⟩ none =
      (⟨200, "Logged out successfully."⟩, ⟨["r1"], []⟩) ∧
    logoutPost ⟨["r1"], []⟩ (some "r2") =
      (⟨400, "Invalid token."⟩, ⟨["r1"], []⟩) :=
  ⟨(logout_without_token_succeeds ⟨["r1"], []⟩).1,
   (logout_without_token_succeeds ⟨["r1"], []⟩).2 "r2" (by decide)
     (by decide)⟩

end AuthModule
